import Mathlib

/-!
Shallow embedding of the request-timing instrumentation layer of
wilsouza/otel-labs (packages `httpclient` and `httpclient/semconv`).

Go strings are modelled as Lean `String` values; the byte-level index
searches of the source operate only on the ASCII delimiters `[`, `]`, `:`,
so character-level indexing over `String.toList` yields the same substring
structure.  Go's `int` is modelled as `Int`, `strconv.ParseUint _ 10 16`
as a partial function into `Nat`, and fallible Go functions as `Option`.
-/

namespace OtelLabs

/-- Index of the first occurrence of character `c` in `l`, if any.
Embeds `strings.Index` / `bytealg.IndexByteString` restricted to a
one-character needle (`-1` becomes `none`). -/
def firstIdx : List Char → Char → Option Nat
  | [], _ => none
  | x :: xs, c =>
      if x = c then some 0
      else (firstIdx xs c).map (· + 1)

/-- Index of the last occurrence of character `c` in `l`, if any.
Embeds `strings.LastIndex` restricted to a one-character needle. -/
def lastIdx : List Char → Char → Option Nat
  | [], _ => none
  | x :: xs, c =>
      match lastIdx xs c with
      | some i => some (i + 1)
      | none => if x = c then some 0 else none

/-- Embedding of Go's `net.SplitHostPort`.  Returns `some (host, port)` on
success and `none` for every `AddrError` branch of the standard-library
source (missing port, missing bracket, too many colons, stray bracket).
The Go source locates the last `:` (the port separator), handles the
bracketed form `[host]:port` by requiring the first `]` to sit just before
that last `:`, rejects a `:` inside an unbracketed host, and rejects stray
`[` / `]` characters after the prefix positions `j` / `k`. -/
def netSplitHostPort (l : List Char) : Option (List Char × List Char) :=
  match lastIdx l ':' with
  | none => none
  | some i =>
      if l.head? = some '[' then
        match firstIdx l ']' with
        | none => none
        | some e =>
            if e + 1 = l.length then none
            else if e + 1 = i then
              if firstIdx (l.drop 1) '[' ≠ none then none
              else if firstIdx (l.drop (e + 1)) ']' ≠ none then none
              else some ((l.take e).drop 1, l.drop (i + 1))
            else none
      else
        if firstIdx (l.take i) ':' ≠ none then none
        else if firstIdx l '[' ≠ none then none
        else if firstIdx l ']' ≠ none then none
        else some (l.take i, l.drop (i + 1))

/-- Embedding of `strconv.ParseUint pStr 10 16`: succeeds exactly on a
non-empty all-decimal-digit string whose value fits in 16 bits. -/
def parseUint16 (s : List Char) : Option Nat :=
  if s.isEmpty then none
  else if s.all Char.isDigit then
    let n := s.foldl (fun acc c => acc * 10 + (c.toNat - 48)) 0
    if n ≤ 65535 then some n else none
  else none

/-- The tail of `splitHostPort` after both fast paths fall through: the
call to `net.SplitHostPort` followed by `strconv.ParseUint`.  Note the Go
source assigns the named return `host` from `net.SplitHostPort` before
parsing the port, so when only the port parse fails the already-assigned
host is returned together with the sentinel `-1`. -/
def fullHostPortParse (l : List Char) : List Char × Int :=
  match netSplitHostPort l with
  | none => ([], -1)
  | some (host, pStr) =>
      match parseUint16 pStr with
      | none => (host, -1)
      | some p => (host, (p : Int))

/-- Embedding of `semconv.splitHostPort` (character-list form): the two
fast paths (bracketed address with no port; unbracketed address with no
colon) followed by the full parse `fullHostPortParse`. -/
def splitHostPortCore (l : List Char) : List Char × Int :=
  if l.head? = some '[' then
    match lastIdx l ']' with
    | none => ([], -1)
    | some addrEnd =>
        match lastIdx (l.drop addrEnd) ':' with
        | none => ((l.take addrEnd).drop 1, -1)
        | some _ => fullHostPortParse l
  else
    match lastIdx l ':' with
    | none => (l, -1)
    | some _ => fullHostPortParse l

/-- Embedding of `semconv.splitHostPort` on `String`: splits a network
authority into host and port, with `-1` as the absent-port sentinel. -/
def splitHostPort (s : String) : String × Int :=
  let r := splitHostPortCore s.toList
  (String.mk r.1, r.2)

/-- Scalar attribute values used by the instrumentation (`attribute.Value`
restricted to the two constructors the code uses). -/
inductive AttrVal where
  | str (s : String)
  | int (n : Int)
  deriving DecidableEq

/-- Embedding of `attribute.KeyValue`. -/
structure KeyValue where
  key : String
  value : AttrVal
  deriving DecidableEq

/-- Embedding of the `httpConv` struct of package `semconv`. -/
structure HttpConv where
  httpRequestMethodKey : String
  httpResponseStatusCodeKey : String
  serverAddressKey : String

/-- The package-level `hc` value, with the OpenTelemetry semantic
convention v1.21.0 key strings. -/
def hc : HttpConv :=
  { httpRequestMethodKey := "http.request.method"
    httpResponseStatusCodeKey := "http.response.status_code"
    serverAddressKey := "server.address" }

/-- Caller-visible fields of an outbound `http.Request`: verb, target
authority (`req.Host`), path, headers, and an opaque body handle. -/
structure Request where
  method : String
  host : String
  urlPath : String
  headers : List (String × List String)
  bodyId : Nat
  deriving DecidableEq

/-- Fields of an `http.Response` the instrumentation can observe: status
code, headers, and an opaque handle standing for the body stream. -/
structure Response where
  statusCode : Int
  headers : List (String × List String)
  bodyId : Nat
  deriving DecidableEq

/-- Embedding of `semconv.ClientResponse`: when the status code is
positive it appends one attribute holding the status code — keyed, as in
the source, under `hc.httpRequestMethodKey`. -/
def ClientResponse (res : Response) : List KeyValue :=
  if res.statusCode > 0 then [⟨hc.httpRequestMethodKey, AttrVal.int res.statusCode⟩]
  else []

/-- Embedding of the `httpConv.peerName` method: splits the given address
again and emits a `server.address` attribute when the re-split host is
non-empty (the port only influences the unused capacity count `n`). -/
def HttpConv.peerName (c : HttpConv) (address : String) : List KeyValue :=
  let hp := splitHostPort address
  let h := hp.1
  let p := hp.2
  let n : Nat := if h ≠ "" then (if p > 0 then 2 else 1) else 0
  if n = 0 then []
  else [⟨c.serverAddressKey, AttrVal.str h⟩]

/-- Embedding of `semconv.ClientRequest`: always the method attribute,
then — when `splitHostPort req.Host` yields a non-empty host `peer` — the
result of `hc.peerName peer`. -/
def ClientRequest (req : Request) : List KeyValue :=
  let attrs := [⟨hc.httpRequestMethodKey, AttrVal.str req.method⟩]
  let peer := (splitHostPort req.host).1
  if peer ≠ "" then attrs ++ hc.peerName peer
  else attrs

/-- Outcome of the wrapped round tripper: a response, or a failure carried
with whatever (possibly nil) response value accompanied the error, as in
the Go pair `(res, err)`. -/
inductive RTResult (E : Type) where
  | ok (res : Response)
  | fail (res : Option Response) (e : E)
  deriving DecidableEq

/-- One recorded histogram sample: the value handed to
`httpLatency.Record` together with its attribute set. -/
structure Measurement where
  value : ℚ
  attrs : List KeyValue
  deriving DecidableEq

/-- Embedding of the `Transport` struct: it holds the wrapped round
tripper; the histogram instrument is represented by the list of emitted
measurements in the result of `RoundTrip`. -/
structure Transport (E : Type) where
  rt : Request → RTResult E

/-- Embedding of `Transport.RoundTrip`.  `elapsedNanos` is the value of
`time.Since(startTime)` in nanoseconds at the point the underlying call
returns; Go's monotonic clock makes it non-negative, hence `Nat`.  The
float64 division by `time.Millisecond` is modelled as exact division in
`ℚ`.  The first component of the result is the caller-visible request
after the call returns: the Go body never assigns to `r` or its fields,
so it is `r` itself.  On failure the pair `(res, err)` is returned as
received and nothing is recorded; on success exactly one measurement is
recorded with the concatenated request-then-response attributes. -/
def Transport.RoundTrip {E : Type} (t : Transport E) (elapsedNanos : Nat)
    (r : Request) : Request × RTResult E × List Measurement :=
  match t.rt r with
  | RTResult.fail res e => (r, RTResult.fail res e, [])
  | RTResult.ok res =>
      let attrs := ClientRequest r ++ ClientResponse res
      let elapsedTime : ℚ := (elapsedNanos : ℚ) / 1000000
      (r, RTResult.ok res, [⟨elapsedTime, attrs⟩])

/-! ### Helper lemmas -/

theorem parseUint16_bound (s : List Char) (n : Nat) (h : parseUint16 s = some n) :
    n ≤ 65535 := by
  unfold parseUint16 at h
  split at h
  · simp at h
  · split at h
    · dsimp only at h
      split at h
      · next hle => injection h with h2; exact h2 ▸ hle
      · simp at h
    · simp at h

theorem fullHostPortParse_port (l : List Char) :
    (fullHostPortParse l).2 = -1 ∨
      (0 ≤ (fullHostPortParse l).2 ∧ (fullHostPortParse l).2 ≤ 65535) := by
  rcases hnet : netSplitHostPort l with _ | ⟨host, pStr⟩
  · simp [fullHostPortParse, hnet]
  · rcases hpu : parseUint16 pStr with _ | p
    · simp [fullHostPortParse, hnet, hpu]
    · have hb := parseUint16_bound pStr p hpu
      refine Or.inr ⟨?_, ?_⟩
      · simp [fullHostPortParse, hnet, hpu]
      · simp only [fullHostPortParse, hnet, hpu]
        exact_mod_cast hb

theorem splitHostPortCore_port (l : List Char) :
    (splitHostPortCore l).2 = -1 ∨
      (0 ≤ (splitHostPortCore l).2 ∧ (splitHostPortCore l).2 ≤ 65535) := by
  unfold splitHostPortCore
  split
  · split
    · left; rfl
    · split
      · left; rfl
      · exact fullHostPortParse_port l
  · split
    · left; rfl
    · exact fullHostPortParse_port l

theorem firstIdx_eq_none_iff (l : List Char) (c : Char) :
    firstIdx l c = none ↔ c ∉ l := by
  induction l with
  | nil => simp [firstIdx]
  | cons x xs ih =>
      rw [firstIdx]
      by_cases hx : x = c
      · rw [if_pos hx]
        constructor
        · intro hq; exact Option.noConfusion hq
        · intro hq; exact (hq (List.mem_cons.mpr (Or.inl hx.symm))).elim
      · rw [if_neg hx]
        cases hxs : firstIdx xs c with
        | some j =>
            have hmem : c ∈ xs := by
              by_contra hq
              rw [ih.mpr hq] at hxs
              exact Option.noConfusion hxs
            constructor
            · intro hq
              rw [Option.map_some'] at hq
              exact Option.noConfusion hq
            · intro hq; exact (hq (List.mem_cons_of_mem x hmem)).elim
        | none =>
            have hnm : c ∉ xs := ih.mp hxs
            constructor
            · intro _ hmem
              rcases List.mem_cons.mp hmem with hcx | hcxs
              · exact hx hcx.symm
              · exact hnm hcxs
            · intro _; rfl

theorem lastIdx_eq_none_iff (l : List Char) (c : Char) :
    lastIdx l c = none ↔ c ∉ l := by
  induction l with
  | nil => simp [lastIdx]
  | cons x xs ih =>
      rw [lastIdx]
      cases hxs : lastIdx xs c with
      | some i =>
          have hmem : c ∈ xs := by
            by_contra hq
            rw [ih.mpr hq] at hxs
            exact Option.noConfusion hxs
          constructor
          · intro hq; exact Option.noConfusion hq
          · intro hq; exact (hq (List.mem_cons_of_mem x hmem)).elim
      | none =>
          have hnm : c ∉ xs := ih.mp hxs
          show (if x = c then some 0 else none) = none ↔ c ∉ x :: xs
          by_cases hx : x = c
          · rw [if_pos hx]
            constructor
            · intro hq; exact Option.noConfusion hq
            · intro hq; exact (hq (List.mem_cons.mpr (Or.inl hx.symm))).elim
          · rw [if_neg hx]
            constructor
            · intro _ hmem
              rcases List.mem_cons.mp hmem with hcx | hcxs
              · exact hx hcx.symm
              · exact hnm hcxs
            · intro _; rfl

theorem firstIdx_get (l : List Char) (c : Char) (i : Nat)
    (h : firstIdx l c = some i) : l.get? i = some c := by
  induction l generalizing i with
  | nil => simp [firstIdx] at h
  | cons x xs ih =>
      rw [firstIdx] at h
      by_cases hx : x = c
      · rw [if_pos hx] at h
        injection h with h2
        subst h2
        simp [hx]
      · rw [if_neg hx] at h
        cases hxs : firstIdx xs c with
        | none => rw [hxs] at h; simp at h
        | some j =>
            rw [hxs] at h
            simp only [Option.map_some'] at h
            injection h with h2
            subst h2
            simpa using ih j hxs

theorem lastIdx_get (l : List Char) (c : Char) (i : Nat)
    (h : lastIdx l c = some i) : l.get? i = some c := by
  induction l generalizing i with
  | nil => simp [lastIdx] at h
  | cons x xs ih =>
      rw [lastIdx] at h
      split at h
      · next j hxs =>
          injection h with h2
          subst h2
          simpa using ih j hxs
      · split at h
        · next hxc =>
            injection h with h2
            subst h2
            simp [hxc]
        · exact Option.noConfusion h

theorem lastIdx_eq_of_get_of_none (l : List Char) (c : Char) (e : Nat)
    (hget : l.get? e = some c) (hafter : c ∉ l.drop (e + 1)) :
    lastIdx l c = some e := by
  induction l generalizing e with
  | nil => simp at hget
  | cons x xs ih =>
      cases e with
      | zero =>
          have hx : x = c := by simpa using hget
          have hxs : lastIdx xs c = none :=
            (lastIdx_eq_none_iff xs c).mpr (by simpa using hafter)
          rw [lastIdx, hxs]
          simp [hx]
      | succ e' =>
          have hget' : xs.get? e' = some c := by simpa using hget
          have hafter' : c ∉ xs.drop (e' + 1) := by simpa using hafter
          rw [lastIdx, ih e' hget' hafter']

theorem mem_drop_of_get? (l : List Char) (c : Char) (a i : Nat)
    (h : l.get? i = some c) (ha : a ≤ i) : c ∈ l.drop a := by
  induction a generalizing l i with
  | zero => simpa using List.get?_mem h
  | succ a' ih =>
      cases l with
      | nil => simp at h
      | cons x xs =>
          cases i with
          | zero => omega
          | succ i' =>
              have h' : xs.get? i' = some c := by simpa using h
              simpa using ih xs i' h' (by omega)

theorem splitHostPortCore_eq_full_of_netSplit (l : List Char)
    (hp : List Char × List Char) (hn : netSplitHostPort l = some hp) :
    splitHostPortCore l = fullHostPortParse l := by
  unfold netSplitHostPort at hn
  split at hn
  · exact Option.noConfusion hn
  · next i hi =>
      split at hn
      · next hbr =>
          split at hn
          · exact Option.noConfusion hn
          · next e he =>
              split at hn
              · exact Option.noConfusion hn
              · split at hn
                · next hei =>
                    split at hn
                    · exact Option.noConfusion hn
                    · split at hn
                      · exact Option.noConfusion hn
                      · next hclose =>
                          have hclose' : firstIdx (l.drop (e + 1)) ']' = none := by
                            by_contra hq
                            exact hclose hq
                          have hgete : l.get? e = some ']' := firstIdx_get l ']' e he
                          have hafter : ']' ∉ l.drop (e + 1) :=
                            (firstIdx_eq_none_iff _ _).mp hclose'
                          have hlast : lastIdx l ']' = some e :=
                            lastIdx_eq_of_get_of_none l ']' e hgete hafter
                          have hgeti : l.get? i = some ':' := lastIdx_get l ':' i hi
                          have hmem : ':' ∈ l.drop e :=
                            mem_drop_of_get? l ':' e i hgeti (by omega)
                          unfold splitHostPortCore
                          rw [if_pos hbr]
                          split
                          · next hq =>
                              rw [hq] at hlast
                              exact Option.noConfusion hlast
                          · next addrEnd hq =>
                              rw [hlast] at hq
                              injection hq with hq2
                              subst hq2
                              split
                              · next hcol =>
                                  exact absurd hmem
                                    ((lastIdx_eq_none_iff _ _).mp hcol)
                              · rfl
                · exact Option.noConfusion hn
      · next hbr =>
          unfold splitHostPortCore
          rw [if_neg hbr, hi]

/-! ### Claim theorems -/

/-- Claim C4: the host/port split satisfies the specified vectors for
well-formed and bracket-form inputs, and the empty string yields
host empty with the absent-port sentinel. -/
theorem C4_split_vectors :
    splitHostPort "example.com" = ("example.com", -1) ∧
    splitHostPort "example.com:8080" = ("example.com", 8080) ∧
    splitHostPort "[::1]" = ("::1", -1) ∧
    splitHostPort "[::1]:443" = ("::1", 443) ∧
    splitHostPort "[::1%eth0]:443" = ("::1%eth0", 443) ∧
    splitHostPort ":9090" = ("", 9090) ∧
    splitHostPort "[unterminated" = ("", -1) ∧
    splitHostPort "" = ("", -1) := by
  decide

/-- Claim C10: splitHostPort is total (it is a Lean function defined on
every string), and the returned port is always either the absent sentinel
-1 or an integer between 0 and 65535 inclusive. -/
theorem C10_total_port_range (s : String) :
    (splitHostPort s).2 = -1 ∨
      (0 ≤ (splitHostPort s).2 ∧ (splitHostPort s).2 ≤ 65535) := by
  have h := splitHostPortCore_port s.toList
  simpa [splitHostPort] using h

/-- Claim C1 (code bug, evaluated at the failing input): for the request
(method GET, authority example.com) and a response with status code 200,
the combined attribute list keys are [method-key, server-address-key,
method-key] — ClientResponse stores the status code under
hc.httpRequestMethodKey, the same key as the request-method label, so the
combined attribute set does contain a duplicate key, contrary to the
claim (and to ClientResponse's own doc comment, which promises the
http.response.status_code key). -/
theorem C1_status_key_collision :
    ((ClientRequest ⟨"GET", "example.com", "/", [], 0⟩ ++
        ClientResponse ⟨200, [], 0⟩).map KeyValue.key =
      ["http.request.method", "server.address", "http.request.method"]) ∧
    ¬ ((ClientRequest ⟨"GET", "example.com", "/", [], 0⟩ ++
        ClientResponse ⟨200, [], 0⟩).map KeyValue.key).Nodup := by
  decide

/-- Claim C2 (counterexample): splitHostPort on the spec's own vector
"host:notaport" returns host "host" — the Go named return value already
holds the host portion when the port parse fails — and not the host-empty
pair the claim demands. -/
theorem C2_counterexample :
    splitHostPort "host:notaport" = ("host", -1) ∧
    splitHostPort "host:notaport" ≠ ("", -1) := by
  decide

/-- Claim C2 (amended): whenever the full host:port parse succeeds
structurally (net.SplitHostPort returns host and port substrings) but the
trailing port substring fails to parse as an unsigned 16-bit integer,
splitHostPort returns that host portion — not the empty string — together
with the absent-port sentinel. -/
theorem C2_unparsable_port_keeps_host (s : String) (hst pst : List Char)
    (hn : netSplitHostPort s.toList = some (hst, pst))
    (hpu : parseUint16 pst = none) :
    splitHostPort s = (String.mk hst, -1) := by
  have hcore : splitHostPortCore s.toList = (hst, -1) := by
    rw [splitHostPortCore_eq_full_of_netSplit s.toList (hst, pst) hn]
    unfold fullHostPortParse
    rw [hn]
    show (match parseUint16 pst with
          | none => (hst, -1)
          | some p => (hst, (p : Int))) = (hst, -1)
    rw [hpu]
  show (String.mk (splitHostPortCore s.toList).1,
          (splitHostPortCore s.toList).2) = (String.mk hst, -1)
  rw [hcore]

/-- Witness for the amended C2 theorem at the concrete authority
"host:notaport". -/
theorem C2_witness :
    netSplitHostPort ("host:notaport".toList) =
        some ("host".toList, "notaport".toList) ∧
    parseUint16 ("notaport".toList) = none ∧
    splitHostPort "host:notaport" = (String.mk ("host".toList), -1) :=
  ⟨by decide, by decide,
    C2_unparsable_port_keeps_host "host:notaport" ("host".toList)
      ("notaport".toList) (by decide) (by decide)⟩

/-- Claim C3 (counterexample): the bracketed IPv6 authority "[::1]:443"
yields the non-empty split host "::1", yet ClientRequest emits only the
method attribute and no server-address label, because peerName re-splits
"::1" and the second split fails on the unbracketed colons. -/
theorem C3_counterexample :
    (splitHostPort "[::1]:443").1 = "::1" ∧
    ("::1" : String) ≠ "" ∧
    ClientRequest ⟨"GET", "[::1]:443", "/", [], 0⟩ =
      [⟨hc.httpRequestMethodKey, AttrVal.str "GET"⟩] := by
  decide

/-- Claim C3 (amended): ClientRequest is the method attribute followed by
a server-address label exactly when the split host is non-empty and
itself re-splits to a non-empty host; the label carries the re-split
host, so it is never the empty string, and bracketed IPv6 authorities
(whose split host still contains colons) get no label. -/
theorem C3_server_address_characterization (req : Request) :
    ClientRequest req =
      ⟨hc.httpRequestMethodKey, AttrVal.str req.method⟩ ::
        (if (splitHostPort req.host).1 ≠ "" ∧
            (splitHostPort (splitHostPort req.host).1).1 ≠ "" then
          [⟨hc.serverAddressKey,
            AttrVal.str (splitHostPort (splitHostPort req.host).1).1⟩]
        else []) := by
  unfold ClientRequest HttpConv.peerName
  by_cases hp : (splitHostPort req.host).1 = ""
  · simp [hp]
  · by_cases hh : (splitHostPort (splitHostPort req.host).1).1 = ""
    · simp [hp, hh]
    · by_cases hport : (splitHostPort (splitHostPort req.host).1).2 > 0
      · simp [hp, hh, hport]
      · simp [hp, hh, hport]

/-- Helper: peerName emits either nothing or exactly one server-address
attribute carrying the re-split host. -/
theorem peerName_cases (c : HttpConv) (address : String) :
    c.peerName address = [] ∨
      ∃ hs, c.peerName address = [⟨c.serverAddressKey, AttrVal.str hs⟩] := by
  unfold HttpConv.peerName
  by_cases hh : (splitHostPort address).1 = ""
  · left; simp [hh]
  · right
    refine ⟨(splitHostPort address).1, ?_⟩
    by_cases hport : (splitHostPort address).2 > 0
    · simp [hh, hport]
    · simp [hh, hport]

/-- Claim C5: when the underlying round tripper fails, RoundTrip returns
the failure pair unchanged (same error value, same result), emits zero
measurements, and the caller-visible request is untouched. -/
theorem C5_failure_propagation {E : Type} (t : Transport E) (r : Request)
    (res : Option Response) (e : E) (d : Nat)
    (h : t.rt r = RTResult.fail res e) :
    t.RoundTrip d r = (r, RTResult.fail res e, []) := by
  unfold Transport.RoundTrip
  rw [h]

/-- Witness for C5 at a concrete transport whose round tripper fails with
error value 7 and a nil response. -/
theorem C5_witness :
    Transport.RoundTrip (⟨fun _ => RTResult.fail none 7⟩ : Transport Nat) 5
        ⟨"GET", "example.com", "/", [], 0⟩ =
      (⟨"GET", "example.com", "/", [], 0⟩, RTResult.fail none 7, []) :=
  C5_failure_propagation (⟨fun _ => RTResult.fail none 7⟩ : Transport Nat)
    ⟨"GET", "example.com", "/", [], 0⟩ none 7 5 rfl

/-- Claim C6: when the underlying round tripper succeeds, RoundTrip emits
exactly one measurement whose value is the elapsed nanoseconds divided by
1000000 as an exact (rational, not truncating) division, and that value
is non-negative. -/
theorem C6_success_measurement {E : Type} (t : Transport E) (r : Request)
    (res : Response) (d : Nat) (h : t.rt r = RTResult.ok res) :
    t.RoundTrip d r =
      (r, RTResult.ok res,
        [⟨(d : ℚ) / 1000000, ClientRequest r ++ ClientResponse res⟩]) ∧
    0 ≤ (d : ℚ) / 1000000 := by
  constructor
  · unfold Transport.RoundTrip
    rw [h]
  · positivity

/-- Witness for C6 at a concrete transport succeeding with status 200
after 1500000 ns (the recorded value is the fraction 3/2 ms). -/
theorem C6_witness :
    Transport.RoundTrip (⟨fun _ => RTResult.ok ⟨200, [], 0⟩⟩ : Transport Nat)
        1500000 ⟨"GET", "example.com", "/", [], 0⟩ =
      (⟨"GET", "example.com", "/", [], 0⟩, RTResult.ok ⟨200, [], 0⟩,
        [⟨(1500000 : ℚ) / 1000000,
          ClientRequest ⟨"GET", "example.com", "/", [], 0⟩ ++
            ClientResponse ⟨200, [], 0⟩⟩]) ∧
    0 ≤ ((1500000 : Nat) : ℚ) / 1000000 :=
  C6_success_measurement (⟨fun _ => RTResult.ok ⟨200, [], 0⟩⟩ : Transport Nat)
    ⟨"GET", "example.com", "/", [], 0⟩ ⟨200, [], 0⟩ 1500000 rfl

/-- Claim C7: the emitted attribute set is the request attributes
followed by the response attributes; within the request attributes the
method label (the verb as a string) is always first, followed by at most
one optional server-address label. -/
theorem C7_attribute_order {E : Type} (t : Transport E) (r : Request)
    (res : Response) (d : Nat) (h : t.rt r = RTResult.ok res) :
    ((t.RoundTrip d r).2.2.map Measurement.attrs =
      [ClientRequest r ++ ClientResponse res]) ∧
    ∃ rest,
      ClientRequest r =
        ⟨hc.httpRequestMethodKey, AttrVal.str r.method⟩ :: rest ∧
      (rest = [] ∨ ∃ hs, rest = [⟨hc.serverAddressKey, AttrVal.str hs⟩]) := by
  constructor
  · simp [Transport.RoundTrip, h]
  · unfold ClientRequest
    by_cases hp : (splitHostPort r.host).1 = ""
    · refine ⟨[], by simp [hp], Or.inl rfl⟩
    · refine ⟨hc.peerName (splitHostPort r.host).1, by simp [hp], ?_⟩
      rcases peerName_cases hc (splitHostPort r.host).1 with hnil | ⟨hs, hone⟩
      · exact Or.inl hnil
      · exact Or.inr ⟨hs, hone⟩

/-- Witness for C7 at a concrete successful exchange. -/
theorem C7_witness :
    ((Transport.RoundTrip (⟨fun _ => RTResult.ok ⟨200, [], 0⟩⟩ : Transport Nat)
        9 ⟨"GET", "example.com:8080", "/", [], 0⟩).2.2.map Measurement.attrs =
      [ClientRequest ⟨"GET", "example.com:8080", "/", [], 0⟩ ++
        ClientResponse ⟨200, [], 0⟩]) ∧
    ∃ rest,
      ClientRequest ⟨"GET", "example.com:8080", "/", [], 0⟩ =
        ⟨hc.httpRequestMethodKey, AttrVal.str "GET"⟩ :: rest ∧
      (rest = [] ∨ ∃ hs, rest = [⟨hc.serverAddressKey, AttrVal.str hs⟩]) :=
  C7_attribute_order (⟨fun _ => RTResult.ok ⟨200, [], 0⟩⟩ : Transport Nat)
    ⟨"GET", "example.com:8080", "/", [], 0⟩ ⟨200, [], 0⟩ 9 rfl

/-- Claim C8: the emitted attribute sets are fully determined by the
(request, response) pair — two RoundTrip runs through different
transports and with different elapsed times, agreeing only on the
response, emit identical attribute sets, namely the request attributes
followed by the response attributes. -/
theorem C8_attrs_deterministic {E E' : Type} (t : Transport E)
    (t' : Transport E') (d d' : Nat) (r : Request) (res : Response)
    (h : t.rt r = RTResult.ok res) (h' : t'.rt r = RTResult.ok res) :
    ((t.RoundTrip d r).2.2.map Measurement.attrs =
      (t'.RoundTrip d' r).2.2.map Measurement.attrs) ∧
    ((t.RoundTrip d r).2.2.map Measurement.attrs =
      [ClientRequest r ++ ClientResponse res]) := by
  simp [Transport.RoundTrip, h, h']

/-- Witness for C8: two transports over distinct error types and distinct
elapsed times agreeing on the response. -/
theorem C8_witness :
    (((⟨fun _ => RTResult.ok ⟨200, [], 0⟩⟩ : Transport Nat).RoundTrip 3
        ⟨"GET", "example.com", "/", [], 0⟩).2.2.map Measurement.attrs =
      ((⟨fun _ => RTResult.ok ⟨200, [], 0⟩⟩ : Transport Bool).RoundTrip 4
        ⟨"GET", "example.com", "/", [], 0⟩).2.2.map Measurement.attrs) ∧
    (((⟨fun _ => RTResult.ok ⟨200, [], 0⟩⟩ : Transport Nat).RoundTrip 3
        ⟨"GET", "example.com", "/", [], 0⟩).2.2.map Measurement.attrs =
      [ClientRequest ⟨"GET", "example.com", "/", [], 0⟩ ++
        ClientResponse ⟨200, [], 0⟩]) :=
  C8_attrs_deterministic (⟨fun _ => RTResult.ok ⟨200, [], 0⟩⟩ : Transport Nat)
    (⟨fun _ => RTResult.ok ⟨200, [], 0⟩⟩ : Transport Bool) 3 4
    ⟨"GET", "example.com", "/", [], 0⟩ ⟨200, [], 0⟩ rfl rfl

/-- Claim C9: after RoundTrip returns, the caller-visible request is
unchanged in every field, and the result — the response on success, or
the failure pair — is exactly what the underlying round tripper
produced. -/
theorem C9_frame {E : Type} (t : Transport E) (d : Nat) (r : Request) :
    (t.RoundTrip d r).1 = r ∧ (t.RoundTrip d r).2.1 = t.rt r := by
  cases h : t.rt r with
  | ok res => simp [Transport.RoundTrip, h]
  | fail res e => simp [Transport.RoundTrip, h]

end OtelLabs
